import Mathlib

/-!
Verification of the bank-statement ingestion and categorization core of the
personal-expense-tracker repository.

The embedding models strings as `List Char` (`Str`), JavaScript numbers as
exact rationals (`ℚ` — every amount handled by the code is a short decimal,
on which JS float arithmetic is exact for the operations used: parsing,
negation, absolute value and comparison against the literals 0, 50 and 1000),
JS objects holding CSV rows as association lists with distinct keys, and
thrown exceptions as `Except.error`.

Sources embedded:
  * `backend/src/services/fileParser.ts` — `parseBankExtract`, `parseCSV`,
    `parseCSVRow`, `parseExcel`, `parsePDF`, `parsePDFLine`, `normalizeDate`.
  * `backend/dist/services/fileParser.js` (TypeScript source also present in
    the repository) — `parseCSVFile`, `parseTransactionRow`, `extractAmount`,
    `extractDescription`, `extractDate`, `determineTransactionType`,
    `parseNumber`, `parseDate`.
  * `backend/src/services/categorizationService.ts` —
    `categorizeTransaction`, `calculateMatchScore`, `getCategoryRules`,
    `getDefaultCategoryId`.
-/

namespace Tracker

/-- Strings are modelled as lists of characters. -/
abbrev Str := List Char

instance {ε α : Type} [DecidableEq ε] [DecidableEq α] : DecidableEq (Except ε α) :=
  fun x y =>
    match x, y with
    | Except.ok a, Except.ok b =>
      if h : a = b then isTrue (by rw [h]) else isFalse (fun e => h (by cases e; rfl))
    | Except.error a, Except.error b =>
      if h : a = b then isTrue (by rw [h]) else isFalse (fun e => h (by cases e; rfl))
    | Except.ok _, Except.error _ => isFalse (fun e => by cases e)
    | Except.error _, Except.ok _ => isFalse (fun e => by cases e)

/-- JS `String.prototype.startsWith`. -/
def jsStartsWith : Str → Str → Bool
  | _, [] => true
  | [], _ :: _ => false
  | c :: cs, p :: ps => c == p && jsStartsWith cs ps

/-- JS `String.prototype.endsWith`. -/
def jsEndsWith (s suffix : Str) : Bool :=
  jsStartsWith s.reverse suffix.reverse

/-- JS `String.prototype.includes` (substring containment). -/
def jsIncludes (s sub : Str) : Bool :=
  match s with
  | [] => jsStartsWith [] sub
  | _ :: t => jsStartsWith s sub || jsIncludes t sub

/-- The whitespace characters relevant to JS `trim` / `\s` (ASCII range;
the Unicode space characters never occur in this repository's data). -/
def isJsWS (c : Char) : Bool :=
  c == ' ' || c == '\t' || c == '\n' || c == '\r' || c == '\x0b' || c == '\x0c'

/-- JS `String.prototype.trim`. -/
def trim (s : Str) : Str :=
  ((s.dropWhile isJsWS).reverse.dropWhile isJsWS).reverse

/-- JS `String.prototype.toLowerCase` (ASCII; all data in scope is ASCII). -/
def lowerStr (s : Str) : Str := s.map Char.toLower

/-- Numeric value of a digit character. -/
def dv (c : Char) : Nat := c.toNat - 48

/-- Natural value of a digit string (`foldl`, as positional notation). -/
def natVal (s : Str) : Nat := s.foldl (fun a c => 10 * a + dv c) 0

/-- JS `parseFloat` on the grammar that occurs in this repository: optional
leading whitespace, optional sign, decimal digits with an optional fractional
part; any trailing characters are ignored; `NaN` is `none`.  (The exponent
and `Infinity` forms of `parseFloat` never arise from the code's inputs and
are not modelled.) -/
def parseFloatUnsigned (s : Str) : Option ℚ :=
  let intPart := s.takeWhile Char.isDigit
  let rest := s.drop intPart.length
  let fracPart :=
    match rest with
    | '.' :: r => r.takeWhile Char.isDigit
    | _ => []
  if intPart = [] ∧ fracPart = [] then none
  else some (mkRat (natVal (intPart ++ fracPart) : Int) (10 ^ fracPart.length))

def parseFloat (s : Str) : Option ℚ :=
  let t := s.dropWhile isJsWS
  match t with
  | [] => none
  | c :: rest =>
    if c = '-' then (parseFloatUnsigned rest).map Neg.neg
    else if c = '+' then parseFloatUnsigned rest
    else parseFloatUnsigned t

/-- JS `Math.abs`, written with a decidable comparison so that it evaluates
(it agrees with `|·|` on ℚ, see `jsAbs_eq_abs`). -/
def jsAbs (q : ℚ) : ℚ := if q < 0 then -q else q

/-- Characters removed by `value.replace(/[$€£¥₹,\s]/g, '')` in
`parseNumber` (dist `fileParser.js`). -/
def isCurrencyStrip (c : Char) : Bool :=
  c == '$' || c == '€' || c == '£' || c == '¥' || c == '₹' || c == ',' || isJsWS c

/-- `parseNumber` from `dist/services/fileParser.js`: strips currency symbols,
commas and whitespace, treats a parenthesized value as negative (accounting
notation), and parses with `parseFloat`. -/
def parseNumber (value : Str) : Option ℚ :=
  if value = [] then none
  else
    let cleaned := value.filter (fun c => !isCurrencyStrip c)
    let isNegative := cleaned.contains '(' && cleaned.contains ')'
    let withoutParens := cleaned.filter (fun c => !(c == '(' || c == ')'))
    match parseFloat withoutParens with
    | none => none
    | some parsed => some (if isNegative then -(jsAbs parsed) else parsed)

/-! ## Row model -/

/-- Transaction type (`'income' | 'expense'`). -/
inductive TxType where
  | income
  | expense
deriving DecidableEq, Repr

/-- A raw CSV/spreadsheet row: a JS object mapping column labels to string
values, modelled as an association list with distinct keys in insertion
order. -/
abbrev RawRow := List (Str × Str)

/-- JS object property read: first binding for the key. -/
def objGet (row : RawRow) (k : Str) : Option Str :=
  (row.find? (fun p => p.1 == k)).map (·.2)

/-- JS truthiness of `row[k]` for string-valued objects: present and
non-empty. -/
def getTruthy (row : RawRow) (k : Str) : Option Str :=
  match objGet row k with
  | some v => if v = [] then none else some v
  | none => none

/-- JS object property assignment `o[k] = v`: update in place if the key
exists (keeping its position), else append. -/
def upsert : RawRow → Str → Str → RawRow
  | [], k, v => [(k, v)]
  | (k', v') :: t, k, v =>
    if k' = k then (k, v) :: t else (k', v') :: upsert t k v

/-- Column-label canonicalization from `parseTransactionRow`:
`key.toLowerCase().replace(/[^a-z0-9]/g, '')`. -/
def canonKey (k : Str) : Str :=
  (lowerStr k).filter (fun c => ('a' ≤ c && c ≤ 'z') || ('0' ≤ c && c ≤ '9'))

/-- The normalized-key row built at the top of `parseTransactionRow`. -/
def normalizeRow (row : RawRow) : RawRow :=
  row.foldl (fun acc p => upsert acc (canonKey p.1) p.2) []

/-! ## `dist/services/fileParser.js`: `parseDate` -/

/-- Leap year (Gregorian). -/
def isLeap (y : Nat) : Bool :=
  (y % 4 == 0 && y % 100 != 0) || y % 400 == 0

def daysInMonth (y m : Nat) : Nat :=
  if m = 2 then (if isLeap y then 29 else 28)
  else if m = 4 ∨ m = 6 ∨ m = 9 ∨ m = 11 then 30
  else 31

/-- A valid Gregorian calendar date. -/
def validDate (y m d : Nat) : Prop :=
  1 ≤ m ∧ m ≤ 12 ∧ 1 ≤ d ∧ d ≤ daysInMonth y m

instance (y m d : Nat) : Decidable (validDate y m d) := by
  unfold validDate; infer_instance

def digitChar (n : Nat) : Char := Char.ofNat (48 + n)

/-- Zero-padded two-digit rendering. -/
def pad2 (n : Nat) : Str := [digitChar (n / 10 % 10), digitChar (n % 10)]

/-- Zero-padded four-digit rendering. -/
def pad4 (n : Nat) : Str :=
  [digitChar (n / 1000 % 10), digitChar (n / 100 % 10),
   digitChar (n / 10 % 10), digitChar (n % 10)]

/-- Canonical `YYYY-MM-DD` rendering of a date. -/
def fmtISO (y m d : Nat) : Str :=
  pad4 y ++ '-' :: (pad2 m ++ '-' :: pad2 d)

/-- Exact match of the shape `NNNN<sep>NN<sep>NN` (digits), yielding the
three numeric groups. -/
def matchShape1 (sep : Char) : Str → Option (Nat × Nat × Nat)
  | [a, b, c, d, s1, e, f, s2, g, h] =>
    if s1 = sep ∧ s2 = sep ∧ ([a, b, c, d, e, f, g, h].all Char.isDigit)
    then some (((dv a * 10 + dv b) * 10 + dv c) * 10 + dv d,
               (dv e * 10 + dv f, dv g * 10 + dv h))
    else none
  | _ => none

/-- Exact match of the shape `NN<sep>NN<sep>NNNN` (digits). -/
def matchShape2 (sep : Char) : Str → Option (Nat × Nat × Nat)
  | [a, b, s1, c, d, s2, e, f, g, h] =>
    if s1 = sep ∧ s2 = sep ∧ ([a, b, c, d, e, f, g, h].all Char.isDigit)
    then some (dv a * 10 + dv b,
               (dv c * 10 + dv d,
                ((dv e * 10 + dv f) * 10 + dv g) * 10 + dv h))
    else none
  | _ => none

/-- Exact match of `^(\d{1,2})\/(\d{1,2})\/(\d{4})$`. -/
def matchSlash12 : Str → Option (Nat × Nat × Nat)
  | [a, '/', c, '/', e, f, g, h] =>
    if ([a, c, e, f, g, h].all Char.isDigit)
    then some (dv a, (dv c, ((dv e * 10 + dv f) * 10 + dv g) * 10 + dv h))
    else none
  | [a, '/', c, d, '/', e, f, g, h] =>
    if ([a, c, d, e, f, g, h].all Char.isDigit)
    then some (dv a, (dv c * 10 + dv d, ((dv e * 10 + dv f) * 10 + dv g) * 10 + dv h))
    else none
  | [a, b, '/', c, '/', e, f, g, h] =>
    if ([a, b, c, e, f, g, h].all Char.isDigit)
    then some (dv a * 10 + dv b, (dv c, ((dv e * 10 + dv f) * 10 + dv g) * 10 + dv h))
    else none
  | [a, b, '/', c, d, '/', e, f, g, h] =>
    if ([a, b, c, d, e, f, g, h].all Char.isDigit)
    then some (dv a * 10 + dv b,
               (dv c * 10 + dv d, ((dv e * 10 + dv f) * 10 + dv g) * 10 + dv h))
    else none
  | _ => none

/-- Days since 1970-01-01 of a civil date (Gregorian proleptic; the
standard era-based algorithm used to model JS `Date` day arithmetic). -/
def daysFromCivil (y m d : Int) : Int :=
  let y' := y - (if m ≤ 2 then 1 else 0)
  let era := Int.fdiv y' 400
  let yoe := y' - era * 400
  let mp := Int.emod (m + 9) 12
  let doy := Int.fdiv (153 * mp + 2) 5 + d - 1
  let doe := yoe * 365 + Int.fdiv yoe 4 - Int.fdiv yoe 100 + doy
  era * 146097 + doe - 719468

/-- Civil date from days since 1970-01-01 (inverse of `daysFromCivil`). -/
def civilFromDays (z : Int) : Int × Int × Int :=
  let z' := z + 719468
  let era := Int.fdiv z' 146097
  let doe := z' - era * 146097
  let yoe := Int.fdiv (doe - Int.fdiv doe 1460 + Int.fdiv doe 36524 - Int.fdiv doe 146096) 365
  let y := yoe + era * 400
  let doy := doe - (365 * yoe + Int.fdiv yoe 4 - Int.fdiv yoe 100)
  let mp := Int.fdiv (5 * doy + 2) 153
  let d := doy - Int.fdiv (153 * mp + 2) 5 + 1
  let m := mp + (if mp < 10 then 3 else -9)
  (y + (if m ≤ 2 then 1 else 0), m, d)

/-- `new Date(year, month - 1, day).toISOString().split('T')[0]` in a UTC
environment: the out-of-range month/day components roll over into the
neighbouring months/years.  (The output of this call is timezone dependent
in JS; the model fixes the server timezone to UTC.) -/
def jsDateRollover (y m d : Nat) : Str :=
  let mi : Int := (m : Int) - 1
  let ym : Int := (y : Int) + Int.fdiv mi 12
  let mn : Int := Int.emod mi 12 + 1
  let days := daysFromCivil ym mn (d : Int)
  let c := civilFromDays days
  fmtISO c.1.toNat c.2.1.toNat c.2.2.toNat

/-- `parseDate` from `dist/services/fileParser.js`.  The first branch
(`new Date(dateString)`) is modelled for ISO `YYYY-MM-DD` date-only strings,
which the ECMA-262 date parser accepts exactly when the components are in
range (such strings are read as UTC, so `toISOString` returns them
unchanged); engine-specific legacy input formats of `new Date` are not
modelled and fall through to the regex branches below, exactly as written in
the source. -/
def parseDate (dateString : Str) : Option Str :=
  if dateString = [] then none
  else
    match matchShape1 '-' dateString with
    | some (y, m, d) =>
      if validDate y m d then some (fmtISO y m d)
      else some (jsDateRollover y m d)
    | none =>
      match matchSlash12 dateString with
      | some (mo, da, y) => some (jsDateRollover y mo da)
      | none =>
        match matchShape2 '-' dateString with
        | some (da, mo, y) => some (jsDateRollover y mo da)
        | none => none

/-! ## `dist/services/fileParser.js`: row extraction -/

/-- The normalized transaction produced by the canonicalizing parser
(`ParsedTransaction` in the source). -/
structure ParsedTransaction where
  amount : ℚ
  description : Str
  type : TxType
  date : Str
deriving DecidableEq, Repr

def amountFields : List Str :=
  ["amount", "amt", "value", "sum", "total",
   "debit", "credit", "transaction", "transactionamount",
   "withdrawals", "deposits", "payment", "charge"].map String.data

/-- `extractAmount`: priority-ordered field lookup, then fallback to any
field whose key contains `amount`/`sum`/`total`. -/
def extractAmount (row : RawRow) : Option ℚ :=
  let primary := amountFields.findSome? fun f =>
    match getTruthy row f with
    | some v => parseNumber v
    | none => none
  match primary with
  | some a => some a
  | none =>
    row.findSome? fun p =>
      if jsIncludes p.1 "amount".data || jsIncludes p.1 "sum".data ||
         jsIncludes p.1 "total".data
      then parseNumber p.2
      else none

def descriptionFields : List Str :=
  ["description", "desc", "memo", "details", "note", "notes",
   "reference", "ref", "payee", "merchant", "vendor",
   "transactiondescription", "narrative", "particulars"].map String.data

/-- `extractDescription`: priority-ordered field lookup, then fallback to the
first non-empty field whose value is not numeric (`isNaN(parseFloat(v))`). -/
def extractDescription (row : RawRow) : Option Str :=
  let primary := descriptionFields.findSome? fun f =>
    match objGet row f with
    | some v => if v ≠ [] ∧ trim v ≠ [] then some (trim v) else none
    | none => none
  match primary with
  | some d => some d
  | none =>
    row.findSome? fun p =>
      if p.2 ≠ [] ∧ trim p.2 ≠ [] ∧ (parseFloat p.2).isNone
      then some (trim p.2)
      else none

def dateFields : List Str :=
  ["date", "transactiondate", "postdate", "valuedate",
   "datetime", "timestamp", "created", "processed"].map String.data

/-- `extractDate`: priority-ordered field lookup through `parseDate`. -/
def extractDate (row : RawRow) : Option Str :=
  dateFields.findSome? fun f =>
    match getTruthy row f with
    | some v => parseDate v
    | none => none

def typeFields : List Str :=
  ["type", "transactiontype", "category", "debitcredit"].map String.data

/-- `determineTransactionType`: explicit type keywords win, then populated
debit/credit columns, then the sign of the parsed amount. -/
def determineTransactionType (row : RawRow) (amount : ℚ) : TxType :=
  let explicit := typeFields.findSome? fun f =>
    match getTruthy row f with
    | some v =>
      let lv := lowerStr v
      if jsIncludes lv "credit".data || jsIncludes lv "deposit".data ||
         jsIncludes lv "income".data
      then some TxType.income
      else if jsIncludes lv "debit".data || jsIncludes lv "withdrawal".data ||
              jsIncludes lv "expense".data
      then some TxType.expense
      else none
    | none => none
  match explicit with
  | some t => t
  | none =>
    if (match getTruthy row "debit".data with
        | some v => (parseNumber v).isSome
        | none => false)
    then TxType.expense
    else if (match getTruthy row "credit".data with
             | some v => (parseNumber v).isSome
             | none => false)
    then TxType.income
    else if amount < 0 then TxType.expense else TxType.income

/-- `parseTransactionRow` from `dist/services/fileParser.js`: canonicalize
the column labels, extract amount, description and date (each failure throws,
modelled as `Except.error`; the JS `!x` checks are false for both `null` and
the empty string), determine the type, and store the absolute amount. -/
def parseTransactionRow (row : RawRow) : Except String ParsedTransaction :=
  let nrow := normalizeRow row
  match extractAmount nrow with
  | none => Except.error "Could not parse amount from row"
  | some amount =>
    match extractDescription nrow with
    | none => Except.error "Could not parse description from row"
    | some description =>
      if description = [] then Except.error "Could not parse description from row"
      else
        match extractDate nrow with
        | none => Except.error "Could not parse date from row"
        | some date =>
          if date = [] then Except.error "Could not parse date from row"
          else
            Except.ok
              { amount := jsAbs amount
                description := trim description
                type := determineTransactionType nrow amount
                date := date }

/-- One iteration of the `data` handler of `parseCSVFile`: a successful row
is pushed onto `results`, a thrown row error is recorded in `errors`. -/
def rowStep (acc : List ParsedTransaction × List String) (row : RawRow) :
    List ParsedTransaction × List String :=
  match parseTransactionRow row with
  | Except.ok t => (acc.1 ++ [t], acc.2)
  | Except.error e => (acc.1, acc.2 ++ ["Row parsing error: " ++ e])

/-- The per-row collection loop of `parseCSVFile`: errors are recorded and
processing continues with the next row. -/
def processCSVRows (rows : List RawRow) : List ParsedTransaction × List String :=
  rows.foldl rowStep ([], [])

/-- `parseCSVFile` from `dist/services/fileParser.js`: collect rows; at end
of stream, reject when there are zero transactions and at least one row
error, otherwise resolve with the transactions. -/
def parseCSVFile (rows : List RawRow) : Except String (List ParsedTransaction) :=
  let r := processCSVRows rows
  if r.1 = [] ∧ r.2 ≠ [] then
    Except.error ("No valid transactions found. Errors: " ++ String.intercalate "; " r.2)
  else
    Except.ok r.1

/-! ## `src/services/fileParser.ts`: `normalizeDate` (moment, strict formats) -/

/-- One strict moment format trial: on an exact format match, the date is
valid exactly when its components form a real calendar date, and
`format('YYYY-MM-DD')` re-renders it zero-padded. -/
def tryFormat (f : Str → Option (Nat × Nat × Nat)) (toYMD : Nat × Nat × Nat → Nat × Nat × Nat)
    (s : Str) : Option Str :=
  match f s with
  | some g =>
    let c := toYMD g
    if validDate c.1 c.2.1 c.2.2 then some (fmtISO c.1 c.2.1 c.2.2) else none
  | none => none

/-- `normalizeDate` from `src/services/fileParser.ts`: try the strict moment
formats `YYYY-MM-DD`, `MM/DD/YYYY`, `DD/MM/YYYY`, `MM-DD-YYYY`, `DD-MM-YYYY`,
`YYYY/MM/DD` in order, rendering the first valid hit as `YYYY-MM-DD`; the
final loose `moment(dateStr)` fallback is modelled for ISO date-only input
(the only shape of this repository's data that reaches it); `none` models the
thrown `Unable to parse date` error. -/
def normalizeDate (s : Str) : Option Str :=
  (tryFormat (matchShape1 '-') id s).orElse fun _ =>
  (tryFormat (matchShape2 '/') (fun g => (g.2.2, g.1, g.2.1)) s).orElse fun _ =>
  (tryFormat (matchShape2 '/') (fun g => (g.2.2, g.2.1, g.1)) s).orElse fun _ =>
  (tryFormat (matchShape2 '-') (fun g => (g.2.2, g.1, g.2.1)) s).orElse fun _ =>
  (tryFormat (matchShape2 '-') (fun g => (g.2.2, g.2.1, g.1)) s).orElse fun _ =>
  (tryFormat (matchShape1 '/') id s).orElse fun _ =>
  tryFormat (matchShape1 '-') id s

/-! ## `src/services/fileParser.ts`: CSV/Excel rows -/

/-- The normalized transaction of `src/services/fileParser.ts`
(`RawTransaction` in the source). -/
structure RawTransaction where
  date : Str
  description : Str
  amount : ℚ
  type : TxType
  account : Option Str
  reference : Option Str
deriving DecidableEq, Repr

def dateColumns : List Str :=
  ["date", "transaction_date", "posting_date", "value_date"].map String.data

def descriptionColumns : List Str :=
  ["description", "memo", "details", "transaction_details", "narration"].map String.data

def amountColumns : List Str :=
  ["amount", "transaction_amount", "debit", "credit", "balance"].map String.data

/-- Characters removed by `.replace(/[,$]/g, '')`. -/
def stripCommaDollar (s : Str) : Str :=
  s.filter (fun c => !(c == ',' || c == '$'))

/-- The amount-column scan of `parseCSVRow`: the first truthy amount column
whose cleaned value `parseFloat`s successfully. -/
def findAmount (row : RawRow) : Option ℚ :=
  amountColumns.findSome? fun c =>
    match getTruthy row c with
    | some v => parseFloat (stripCommaDollar v)
    | none => none

/-- `parseCSVRow` from `src/services/fileParser.ts`: literal (uncanonicalized)
column lookups; a row with no truthy date column, no truthy description
column, or an amount of exactly 0 yields `null` (`Except.ok none`); a date
that `normalizeDate` cannot parse throws (`Except.error`). -/
def parseCSVRow (row : RawRow) : Except Unit (Option RawTransaction) :=
  let date := (dateColumns.findSome? (getTruthy row)).getD []
  let description := (descriptionColumns.findSome? (getTruthy row)).getD []
  let amount := (findAmount row).getD 0
  if date = [] ∨ description = [] ∨ amount = 0 then Except.ok none
  else
    let ty := if 0 < amount then TxType.income else TxType.expense
    match normalizeDate date with
    | none => Except.error ()
    | some nd =>
      Except.ok (some
        { date := nd
          description := trim description
          amount := jsAbs amount
          type := ty
          account :=
            match getTruthy row "account".data with
            | some v => some v
            | none => getTruthy row "account_number".data
          reference :=
            match getTruthy row "reference".data with
            | some v => some v
            | none => getTruthy row "transaction_id".data })

/-- One iteration of the shared row loop of `parseCSV` and `parseExcel`:
`null` rows are skipped, and a thrown row error is logged (`console.warn`)
and skipped — in both cases the loop continues and nothing is recorded. -/
def collectStep (acc : List RawTransaction) (row : RawRow) : List RawTransaction :=
  match parseCSVRow row with
  | Except.ok (some t) => acc ++ [t]
  | Except.ok none => acc
  | Except.error _ => acc

/-- The shared row loop of `parseCSV` and `parseExcel`. -/
def collectRows (rows : List RawRow) : List RawTransaction :=
  rows.foldl collectStep []

/-- `parseCSV` from `src/services/fileParser.ts` (row-level behaviour; the
stream itself only fails on I/O errors, outside this model). -/
def parseCSV (rows : List RawRow) : List RawTransaction := collectRows rows

/-- `parseExcel` from `src/services/fileParser.ts` — it reuses the CSV row
parsing logic on the first sheet's rows. -/
def parseExcel (rows : List RawRow) : List RawTransaction := collectRows rows

/-! ## `src/services/fileParser.ts`: PDF line scanner -/

/-- Match the date alternative `\d{g1}<sep>\d{g2}<sep>\d{g3}` at the start of
`s`, returning the matched text. -/
def matchDigitsSep (g1 g2 g3 : Nat) (sep : Char) (s : Str) : Option Str :=
  let d1 := (s.takeWhile Char.isDigit).take g1
  if d1.length = g1 then
    match s.drop g1 with
    | c1 :: r1 =>
      if c1 = sep then
        let d2 := (r1.takeWhile Char.isDigit).take g2
        if d2.length = g2 then
          match r1.drop g2 with
          | c2 :: r2 =>
            if c2 = sep then
              let d3 := (r2.takeWhile Char.isDigit).take g3
              if d3.length = g3 then some (d1 ++ c1 :: d2 ++ c2 :: d3) else none
            else none
          | [] => none
        else none
      else none
    | [] => none
  else none

/-- The date pattern of `parsePDFLine`:
`(\d{4}-\d{2}-\d{2}|\d{2}\/\d{2}\/\d{4}|\d{2}-\d{2}-\d{4})` matched at one
position (alternatives in source order). -/
def dateAt (s : Str) : Option Str :=
  (matchDigitsSep 4 2 2 '-' s).orElse fun _ =>
  (matchDigitsSep 2 2 4 '/' s).orElse fun _ =>
  matchDigitsSep 2 2 4 '-' s

/-- Leftmost match of the date pattern in `s` (JS `String.match`). -/
def findFirstDate (s : Str) : Option Str :=
  match s with
  | [] => none
  | _ :: t =>
    match dateAt s with
    | some m => some m
    | none => findFirstDate t

/-- The `(,\d{3})*` groups of the amount pattern. -/
def commaGroups : Str → Str × Str
  | ',' :: a :: b :: c :: rest =>
    if a.isDigit && b.isDigit && c.isDigit then
      let r := commaGroups rest
      (',' :: a :: b :: c :: r.1, r.2)
    else ([], ',' :: a :: b :: c :: rest)
  | s => ([], s)

/-- The amount pattern of `parsePDFLine`:
`([+-]?\$?\d{1,3}(?:,\d{3})*(?:\.\d{2})?)` matched at one position. -/
def amountAt (s : Str) : Option Str :=
  let (sign, s1) :=
    match s with
    | c :: r => if c = '+' ∨ c = '-' then ([c], r) else ([], s)
    | [] => ([], [])
  let (dollar, s2) :=
    match s1 with
    | c :: r => if c = '$' then ([c], r) else ([], s1)
    | [] => ([], [])
  let digits := (s2.takeWhile Char.isDigit).take 3
  if digits = [] then none
  else
    let s3 := s2.drop digits.length
    let (groups, s4) := commaGroups s3
    let dec :=
      match s4 with
      | '.' :: a :: b :: _ => if a.isDigit && b.isDigit then ['.', a, b] else []
      | _ => []
    some (sign ++ dollar ++ digits ++ groups ++ dec)

/-- Leftmost match of the amount pattern in `s`. -/
def findFirstAmount (s : Str) : Option Str :=
  match s with
  | [] => none
  | _ :: t =>
    match amountAt s with
    | some m => some m
    | none => findFirstAmount t

/-- JS `String.prototype.replace` with a string pattern: remove the first
occurrence of `target`. -/
def removeFirst (s target : Str) : Str :=
  if jsStartsWith s target ∧ target ≠ [] then s.drop target.length
  else
    match s with
    | [] => []
    | c :: r => c :: removeFirst r target

/-- `parsePDFLine` from `src/services/fileParser.ts`: a trimmed line of at
least 10 characters matching both the date and the amount pattern yields a
transaction; the description is the line with the matched date and amount
substrings removed, all `+`/`-` characters stripped, and trimmed.  A date
match that `normalizeDate` cannot parse throws out of the enclosing loop
(`Except.error`). -/
def parsePDFLine (line : Str) : Except Unit (Option RawTransaction) :=
  let t := trim line
  if t.length < 10 then Except.ok none
  else
    match findFirstDate t, findFirstAmount t with
    | some dm, some am =>
      match normalizeDate dm with
      | none => Except.error ()
      | some nd =>
        match parseFloat (stripCommaDollar am) with
        | none => Except.ok none
        | some a =>
          let ty := if 0 < a then TxType.income else TxType.expense
          let description :=
            trim ((removeFirst (removeFirst t dm) am).filter
              (fun c => !(c == '+' || c == '-')))
          Except.ok (some
            { date := nd
              description := description
              amount := jsAbs a
              type := ty
              account := none
              reference := none })
    | _, _ => Except.ok none

/-- `parsePDF` from `src/services/fileParser.ts`: scan the extracted text
line by line; a throw from `parsePDFLine` aborts the loop and surfaces as the
whole-file `Failed to parse PDF file` error. -/
def parsePDF (lines : List Str) : Except String (List RawTransaction) :=
  let rec go : List Str → List RawTransaction → Except String (List RawTransaction)
    | [], acc => Except.ok acc.reverse
    | l :: ls, acc =>
      match parsePDFLine l with
      | Except.error _ => Except.error "Failed to parse PDF file"
      | Except.ok none => go ls acc
      | Except.ok (some t) => go ls (t :: acc)
  go lines []

/-! ## `src/services/fileParser.ts`: format dispatch -/

/-- The interpretations of the uploaded file's bytes consumed by the three
row extractors. -/
structure FileContent where
  csvRows : List RawRow
  excelRows : List RawRow
  pdfLines : List Str

inductive FileError where
  | unsupportedFormat (ext : Str)
  | pdfFailed
deriving DecidableEq, Repr

/-- JS `String.prototype.split` on a single-character separator. -/
def splitOnChar (sep : Char) (s : Str) : List Str :=
  match s with
  | [] => [[]]
  | c :: r =>
    let rest := splitOnChar sep r
    if c = sep then [] :: rest
    else
      match rest with
      | h :: t => (c :: h) :: t
      | [] => [[c]]

/-- `filePath.split('.').pop()?.toLowerCase()`. -/
def fileExtension (filePath : Str) : Str :=
  lowerStr ((splitOnChar '.' filePath).getLastD [])

/-- `parseBankExtract` from `src/services/fileParser.ts`: dispatch on the
lower-cased file extension to the CSV, Excel or PDF extractor; any other
extension throws `Unsupported file format: <ext>` without touching the file
content. -/
def parseBankExtract (filePath : Str) (file : FileContent) :
    Except FileError (List RawTransaction) :=
  let ext := fileExtension filePath
  if ext = "csv".data then Except.ok (parseCSV file.csvRows)
  else if ext = "xlsx".data ∨ ext = "xls".data then Except.ok (parseExcel file.excelRows)
  else if ext = "pdf".data then
    match parsePDF file.pdfLines with
    | Except.ok ts => Except.ok ts
    | Except.error _ => Except.error FileError.pdfFailed
  else Except.error (FileError.unsupportedFormat ext)

/-! ## `src/services/categorizationService.ts` -/

/-- A category row from the `categories` table (only the fields the matcher
reads). -/
structure Category where
  id : Int
  name : Str
deriving DecidableEq, Repr

/-- A rule of the static keyword table. -/
structure CategoryRule where
  id : Nat
  name : Str
  keywords : List Str
deriving DecidableEq, Repr

/-- `calculateMatchScore`: +10 per keyword found space-delimited in the
description (interior ` kw `, leading `kw `, or trailing ` kw`), +5 per
keyword found only as a bare substring, plus the +2 amount-band bonus for
expense rules. -/
def calculateMatchScore (description : Str) (keywords : List Str) (amount : ℚ)
    (ty : TxType) : Nat :=
  let base := keywords.foldl
    (fun score keyword =>
      let k := lowerStr keyword
      if jsIncludes description k then
        if jsIncludes description (' ' :: (k ++ [' '])) ||
           jsStartsWith description (k ++ [' ']) ||
           jsEndsWith description (' ' :: k)
        then score + 10
        else score + 5
      else score)
    0
  if ty = TxType.expense then
    if amount > 1000 then
      if keywords.contains "rent".data || keywords.contains "mortgage".data ||
         keywords.contains "car".data
      then base + 2
      else base
    else if amount < 50 then
      if keywords.contains "coffee".data || keywords.contains "food".data ||
         keywords.contains "snack".data
      then base + 2
      else base
    else base
  else base

/-- `getCategoryRules`: the static keyword table, in source order. -/
def getCategoryRules (ty : TxType) : List CategoryRule :=
  match ty with
  | TxType.expense =>
    [{ id := 1, name := "Food & Dining".data
       keywords :=
         ["restaurant", "cafe", "coffee", "starbucks", "mcdonalds", "subway", "pizza",
          "grocery", "supermarket", "walmart", "target", "safeway", "kroger",
          "food", "dining", "lunch", "dinner", "breakfast", "takeout", "delivery",
          "uber eats", "doordash", "grubhub", "postmates"].map String.data },
     { id := 2, name := "Transportation".data
       keywords :=
         ["gas", "fuel", "shell", "exxon", "chevron", "bp", "mobil",
          "uber", "lyft", "taxi", "bus", "train", "metro", "parking",
          "car payment", "auto", "insurance", "dmv", "registration",
          "mechanic", "repair", "oil change", "tire"].map String.data },
     { id := 3, name := "Shopping".data
       keywords :=
         ["amazon", "ebay", "shopping", "mall", "store", "retail",
          "clothing", "clothes", "shoes", "fashion", "electronics",
          "best buy", "apple store", "costco", "home depot", "lowes"].map String.data },
     { id := 4, name := "Entertainment".data
       keywords :=
         ["netflix", "spotify", "hulu", "disney", "amazon prime",
          "movie", "cinema", "theater", "concert", "game", "gaming",
          "steam", "playstation", "xbox", "entertainment", "fun",
          "bar", "club", "pub", "drinks"].map String.data },
     { id := 5, name := "Bills & Utilities".data
       keywords :=
         ["electric", "electricity", "pge", "utility", "water", "sewer",
          "internet", "comcast", "verizon", "att", "phone", "cell",
          "rent", "mortgage", "loan", "credit card", "payment",
          "insurance", "bill", "subscription"].map String.data },
     { id := 6, name := "Healthcare".data
       keywords :=
         ["doctor", "medical", "hospital", "pharmacy", "cvs", "walgreens",
          "dentist", "dental", "health", "medicine", "prescription",
          "clinic", "urgent care", "insurance"].map String.data }]
  | TxType.income =>
    [{ id := 7, name := "Income".data
       keywords :=
         ["salary", "payroll", "wage", "income", "deposit", "direct deposit",
          "paycheck", "pay", "employer", "work", "freelance", "consulting",
          "bonus", "commission", "refund", "cashback", "interest", "dividend"].map
           String.data }]

/-- `categoryRules.find(r => r.name.toLowerCase() === category.name.toLowerCase())`. -/
def findRule (rules : List CategoryRule) (cat : Category) : Option CategoryRule :=
  rules.find? (fun r => lowerStr r.name == lowerStr cat.name)

/-- `getDefaultCategoryId`: for income, the category named `income` if
present; otherwise (both types) the category named `other`, else `null`. -/
def getDefaultCategoryId (ty : TxType) (categories : List Category) : Option Int :=
  let other := (categories.find? (fun c => lowerStr c.name == "other".data)).map (·.id)
  match ty with
  | TxType.income =>
    match categories.find? (fun c => lowerStr c.name == "income".data) with
    | some c => some c.id
    | none => other
  | TxType.expense => other

/-- One step of the best-match loop of `categorizeTransaction`:
`if (score > 0 && (!bestMatch || score > bestMatch.score)) bestMatch = ...`. -/
def bestStep (best : Option (Category × Nat)) (p : Category × Nat) :
    Option (Category × Nat) :=
  if 0 < p.2 ∧ (match best with | none => true | some q => decide (q.2 < p.2)) = true
  then some p
  else best

/-- One iteration of the category loop of `categorizeTransaction`: a category
with no rule of the matching type is skipped (`continue`), otherwise the
best match is updated through `bestStep`. -/
def catStep (rules : List CategoryRule) (nd : Str) (amount : ℚ) (ty : TxType)
    (b : Option (Category × Nat)) (cat : Category) : Option (Category × Nat) :=
  match findRule rules cat with
  | none => b
  | some rule => bestStep b (cat, calculateMatchScore nd rule.keywords amount ty)

/-- `categorizeTransaction` (pure core): the DB read `SELECT * FROM
categories` is passed in as `categories`; the description is lower-cased and
trimmed; categories without a matching rule are skipped; the best positive
score wins, updated only on strict improvement; with no positive score the
default category is returned.  No failure path exists (the `catch` returns
`null`). -/
def categorizeTransaction (categories : List Category) (description : Str)
    (amount : ℚ) (ty : TxType) : Option Int :=
  if categories = [] then none
  else
    let normalizedDescription := trim (lowerStr description)
    let rules := getCategoryRules ty
    let best := categories.foldl (catStep rules normalizedDescription amount ty) none
    match best with
    | some p => some p.1.id
    | none => getDefaultCategoryId ty categories

/-! ## Specification-side definitions

These definitions follow the wording of the specification's claims (not the
source); they exist to be compared against the source-derived functions
above. -/

/-- Per-keyword score of `calculateMatchScore`, factored out per keyword:
+10 when the (lower-cased) keyword occurs space-delimited in the description
(interior ` kw `, leading `kw `, or trailing ` kw`), else +5 when it occurs
as a bare substring, else 0. -/
def keywordScore (description keyword : Str) : Nat :=
  let k := lowerStr keyword
  if jsIncludes description k then
    if jsIncludes description (' ' :: (k ++ [' '])) ||
       jsStartsWith description (k ++ [' ']) ||
       jsEndsWith description (' ' :: k)
    then 10
    else 5
  else 0

/-- The +2 amount-band bonus of `calculateMatchScore`, factored out. -/
def amountBonus (keywords : List Str) (amount : ℚ) (ty : TxType) : Nat :=
  if ty = TxType.expense then
    if amount > 1000 then
      if keywords.contains "rent".data || keywords.contains "mortgage".data ||
         keywords.contains "car".data
      then 2 else 0
    else if amount < 50 then
      if keywords.contains "coffee".data || keywords.contains "food".data ||
         keywords.contains "snack".data
      then 2 else 0
    else 0
  else 0

/-- The claim's notion of a whole-word occurrence: the keyword occurs at some
position bounded on each side by whitespace or a string edge. -/
def wholeWordClaim (description k : Str) : Bool :=
  (List.range (description.length + 1)).any fun i =>
    jsStartsWith (description.drop i) k &&
    (i == 0 ||
      (match description[i - 1]? with
       | some c => isJsWS c
       | none => false)) &&
    (i + k.length == description.length ||
      (match description[i + k.length]? with
       | some c => isJsWS c
       | none => false))

/-- The match score as worded by the claim: +10 for each keyword occurring as
a whole word bounded by whitespace or string edges, +5 for each keyword
occurring only as a substring, plus the amount-band bonus. -/
def claimMatchScore (description : Str) (keywords : List Str) (amount : ℚ)
    (ty : TxType) : Nat :=
  (keywords.map fun keyword =>
    let k := lowerStr keyword
    if wholeWordClaim description k then 10
    else if jsIncludes description k then 5
    else 0).sum
  + amountBonus keywords amount ty

/-- The candidates considered by `categorizeTransaction`, in the iteration
order of the caller-supplied `categories` list, each paired with its score;
categories without a rule of the matching type are absent. -/
def scoredCandidates (categories : List Category) (description : Str)
    (amount : ℚ) (ty : TxType) : List (Category × Nat) :=
  categories.filterMap fun cat =>
    (findRule (getCategoryRules ty) cat).map fun rule =>
      (cat, calculateMatchScore (trim (lowerStr description)) rule.keywords amount ty)

/-- The earliest list element attaining the maximal score, provided that
score is positive; `none` when every score is 0. -/
def firstMax : List (Category × Nat) → Option (Category × Nat)
  | [] => none
  | p :: l =>
    match firstMax l with
    | none => if 0 < p.2 then some p else none
    | some q => if 0 < p.2 ∧ q.2 ≤ p.2 then some p else some q

/-- Combination of a current best with the best of the remaining list (used
to relate the source's fold to `firstMax`): earlier wins ties. -/
def mergeBest : Option (Category × Nat) → Option (Category × Nat) → Option (Category × Nat)
  | none, r => r
  | some q, none => some q
  | some q, some p => if q.2 < p.2 then some p else some q

/-- The categorizer as worded by the claim: candidates are scored and the
tie among maximal scores is broken by the FIXED RULE-TABLE order (not the
caller-supplied category order); defaulting as in the source. -/
def claimCategorize (categories : List Category) (description : Str)
    (amount : ℚ) (ty : TxType) : Option Int :=
  let normalizedDescription := trim (lowerStr description)
  let scored := (getCategoryRules ty).filterMap fun rule =>
    (categories.find? (fun c => lowerStr c.name == lowerStr rule.name)).map fun cat =>
      (cat, calculateMatchScore normalizedDescription rule.keywords amount ty)
  match firstMax scored with
  | some p => some p.1.id
  | none => getDefaultCategoryId ty categories

/-- A row is recognizable to the canonicalizing normalizer when all three
extractions succeed with truthy values. -/
def rowRecognizable (row : RawRow) : Prop :=
  (extractAmount (normalizeRow row)).isSome = true ∧
  (extractDescription (normalizeRow row)).getD [] ≠ [] ∧
  (extractDate (normalizeRow row)).getD [] ≠ []

instance (row : RawRow) : Decidable (rowRecognizable row) := by
  unfold rowRecognizable; infer_instance

/-! ## Helper lemmas -/

theorem jsAbs_eq_abs (q : ℚ) : jsAbs q = |q| := by
  unfold jsAbs
  split
  · exact (abs_of_neg (by assumption)).symm
  · exact (abs_of_nonneg (le_of_not_lt (by assumption))).symm

theorem digit_ne_of {c x : Char} (h : c.isDigit = true) (hx : x.isDigit = false) :
    c ≠ x := by
  intro e
  subst e
  rw [h] at hx
  cases hx

theorem digit_not_ws {c : Char} (h : c.isDigit = true) : isJsWS c = false := by
  have h1 : c ≠ ' ' := digit_ne_of h (by decide)
  have h2 : c ≠ '\t' := digit_ne_of h (by decide)
  have h3 : c ≠ '\n' := digit_ne_of h (by decide)
  have h4 : c ≠ '\r' := digit_ne_of h (by decide)
  have h5 : c ≠ '\x0b' := digit_ne_of h (by decide)
  have h6 : c ≠ '\x0c' := digit_ne_of h (by decide)
  simp [isJsWS, beq_iff_eq, h1, h2, h3, h4, h5, h6]

theorem digit_not_strip {c : Char} (h : c.isDigit = true) : isCurrencyStrip c = false := by
  have h1 : c ≠ '$' := digit_ne_of h (by decide)
  have h2 : c ≠ '€' := digit_ne_of h (by decide)
  have h3 : c ≠ '£' := digit_ne_of h (by decide)
  have h4 : c ≠ '¥' := digit_ne_of h (by decide)
  have h5 : c ≠ '₹' := digit_ne_of h (by decide)
  have h6 : c ≠ ',' := digit_ne_of h (by decide)
  simp [isCurrencyStrip, beq_iff_eq, h1, h2, h3, h4, h5, h6, digit_not_ws h]

theorem digit_not_paren {c : Char} (h : c.isDigit = true) :
    (c == '(' || c == ')') = false := by
  have h1 : c ≠ '(' := digit_ne_of h (by decide)
  have h2 : c ≠ ')' := digit_ne_of h (by decide)
  simp [beq_iff_eq, h1, h2]

theorem takeWhile_of_all {p : Char → Bool} :
    ∀ l : Str, (∀ c ∈ l, p c = true) → List.takeWhile p l = l
  | [], _ => rfl
  | c :: t, h => by
    rw [List.takeWhile_cons, h c (by simp)]
    simp [takeWhile_of_all t (fun d hd => h d (by simp [hd]))]

theorem not_contains_of_all {x : Char} {p : Char → Bool} (hx : p x = false)
    (l : Str) (h : ∀ c ∈ l, p c = true) : l.contains x = false := by
  have hm : x ∉ l := fun hm => by rw [h x hm] at hx; cases hx
  simpa using hm

/-- `parseFloat` on a pure digit string is its positional value. -/
theorem parseFloat_digits (ds : Str) (h1 : ds ≠ []) (h2 : ∀ c ∈ ds, c.isDigit = true) :
    parseFloat ds = some ((natVal ds : ℚ)) := by
  obtain ⟨c, t, rfl⟩ := List.exists_cons_of_ne_nil h1
  have hc : c.isDigit = true := h2 c (by simp)
  have hdrop : (c :: t).dropWhile isJsWS = c :: t := by
    simp [List.dropWhile_cons, digit_not_ws hc]
  have hm : c ≠ '-' := digit_ne_of hc (by decide)
  have hp : c ≠ '+' := digit_ne_of hc (by decide)
  have htake : (c :: t).takeWhile Char.isDigit = c :: t := takeWhile_of_all _ h2
  simp only [parseFloat, hdrop, if_neg hm, if_neg hp, parseFloatUnsigned, htake,
    List.drop_length, List.append_nil, pow_zero]
  rw [if_neg (by simp)]
  simp [Rat.mkRat_one]

/-! ## Theorems -/

/-- **C4**: for every file whose extension is not one of `csv`, `xlsx`,
`xls`, `pdf`, dispatch fails with the `UnsupportedFormat` error before any
row is read — the result does not depend on the file's content, so no
partial extraction is attempted — and for the supported extensions it
selects the corresponding extractor. -/
theorem c4_format_dispatch (fp : Str) (file file' : FileContent) :
    (fileExtension fp ∉ ["csv".data, "xlsx".data, "xls".data, "pdf".data] →
      parseBankExtract fp file = Except.error (FileError.unsupportedFormat (fileExtension fp)) ∧
      parseBankExtract fp file = parseBankExtract fp file') ∧
    (fileExtension fp = "csv".data →
      parseBankExtract fp file = Except.ok (parseCSV file.csvRows)) ∧
    (fileExtension fp = "xlsx".data ∨ fileExtension fp = "xls".data →
      parseBankExtract fp file = Except.ok (parseExcel file.excelRows)) ∧
    (fileExtension fp = "pdf".data →
      parseBankExtract fp file =
        match parsePDF file.pdfLines with
        | Except.ok ts => Except.ok ts
        | Except.error _ => Except.error FileError.pdfFailed) := by
  refine ⟨fun h => ?_, fun h => ?_, fun h => ?_, fun h => ?_⟩
  · simp only [List.mem_cons, List.not_mem_nil, or_false, not_or] at h
    obtain ⟨h1, h2, h3, h4⟩ := h
    constructor <;> simp [parseBankExtract, h1, h2, h3, h4]
  · simp [parseBankExtract, h]
  · rcases h with h | h <;>
      simp [parseBankExtract, h,
        show ("xlsx".data : Str) ≠ "csv".data from by decide,
        show ("xls".data : Str) ≠ "csv".data from by decide]
  · simp [parseBankExtract, h,
      show ("pdf".data : Str) ≠ "csv".data from by decide,
      show ("pdf".data : Str) ≠ "xlsx".data from by decide,
      show ("pdf".data : Str) ≠ "xls".data from by decide]

/-- Witness for C4: a `.docx` upload is rejected as unsupported. -/
theorem c4_format_dispatch_witness :
    parseBankExtract "statement.docx".data ⟨[], [], []⟩ =
      Except.error (FileError.unsupportedFormat "docx".data) := by
  have h := ((c4_format_dispatch "statement.docx".data ⟨[], [], []⟩ ⟨[], [], []⟩).1
    (by decide)).1
  rw [show fileExtension "statement.docx".data = "docx".data from by decide] at h
  exact h

/-- **C10**: a CSV/spreadsheet row whose extracted amount parses to exactly 0
yields `null` from `parseCSVRow` — no transaction and no recorded error: the
row contributes nothing to `parseCSV`/`parseExcel` output — and consequently
no transaction with amount 0 ever appears in the output of this parser. -/
theorem c10_zero_amount_dropped (row : RawRow) (h : findAmount row = some 0) :
    parseCSVRow row = Except.ok none ∧
    (∀ pre post : List RawRow,
      parseCSV (pre ++ row :: post) = parseCSV (pre ++ post) ∧
      parseExcel (pre ++ row :: post) = parseExcel (pre ++ post)) ∧
    (∀ (r : RawRow) (t : RawTransaction),
      parseCSVRow r = Except.ok (some t) → t.amount ≠ 0) := by
  have hnone : parseCSVRow row = Except.ok none := by
    simp [parseCSVRow, h]
  refine ⟨hnone, fun pre post => ?_, fun r t hr => ?_⟩
  · have key : ∀ l : List RawTransaction, collectStep l row = l := by
      intro l; simp [collectStep, hnone]
    constructor <;>
      simp [parseCSV, parseExcel, collectRows, List.foldl_append, List.foldl_cons, key]
  · simp only [parseCSVRow] at hr
    split at hr
    · simp at hr
    · rename_i hcond
      push_neg at hcond
      obtain ⟨-, -, hamt⟩ := hcond
      split at hr
      · simp at hr
      · simp only [Except.ok.injEq, Option.some.injEq] at hr
        subst hr
        simpa [jsAbs_eq_abs] using abs_ne_zero.mpr hamt

/-- Witness for C10: a row with a valid date and description and amount `"0"`
is silently dropped. -/
theorem c10_zero_amount_dropped_witness :
    parseCSVRow [("date".data, "2024-01-05".data), ("description".data, "stuff".data),
      ("amount".data, "0".data)] = Except.ok none :=
  (c10_zero_amount_dropped _ (by decide)).1

/-- **C7** (counterexample): the row
`{"Txn Date":"13/01/2024","Memo":"Rent","Debit":"1500.00"}` does NOT
normalize to a transaction — the canonicalizing parser throws a date
extraction error, so the claimed `NormalizedTransaction` is never produced. -/
theorem c7_counterexample :
    parseTransactionRow
      [("Txn Date".data, "13/01/2024".data), ("Memo".data, "Rent".data),
       ("Debit".data, "1500.00".data)] =
      Except.error "Could not parse date from row" := by
  rfl

/-- **C7** (amended): on the row
`{"Txn Date":"13/01/2024","Memo":"Rent","Debit":"1500.00"}` canonicalization
does find the amount 1500.00 (via `Debit`, which would force type Expense)
and the description `Rent` (via `Memo`), but `"Txn Date"` canonicalizes to
`txndate`, which is not among the recognized date labels, so date extraction
fails and the row yields a ParseError (`Could not parse date from row`)
instead of the claimed transaction.  (The non-canonicalizing
`src/services/fileParser.ts` row parser also produces no transaction for this
row: it silently returns `null`.) -/
theorem c7_amended :
    extractAmount (normalizeRow
      [("Txn Date".data, "13/01/2024".data), ("Memo".data, "Rent".data),
       ("Debit".data, "1500.00".data)]) = some 1500 ∧
    extractDescription (normalizeRow
      [("Txn Date".data, "13/01/2024".data), ("Memo".data, "Rent".data),
       ("Debit".data, "1500.00".data)]) = some "Rent".data ∧
    extractDate (normalizeRow
      [("Txn Date".data, "13/01/2024".data), ("Memo".data, "Rent".data),
       ("Debit".data, "1500.00".data)]) = none ∧
    parseTransactionRow
      [("Txn Date".data, "13/01/2024".data), ("Memo".data, "Rent".data),
       ("Debit".data, "1500.00".data)] =
      Except.error "Could not parse date from row" ∧
    parseCSVRow
      [("Txn Date".data, "13/01/2024".data), ("Memo".data, "Rent".data),
       ("Debit".data, "1500.00".data)] = Except.ok none := by
  refine ⟨by decide, by decide, by decide, rfl, by decide⟩

/-- **C8** (counterexample): for the digit string `"0"`, the parenthesized
parse `"(0)"` yields 0, which is not a negative number, so the claim's
"yields a negative number" is false as stated. -/
theorem c8_counterexample :
    parseNumber "(0)".data = some 0 ∧ parseNumber "0".data = some 0 ∧
    ¬((0 : ℚ) < 0) := by
  refine ⟨by decide, by decide, by decide⟩

/-- **C8** (amended): for every digit string, parsing the value wrapped in
parentheses yields exactly the negation of the non-parenthesized parse of the
same digits — strictly negative whenever the digits denote a nonzero
value. -/
theorem c8_paren_negation (ds : Str) (h1 : ds ≠ []) (h2 : ∀ c ∈ ds, c.isDigit = true) :
    parseNumber ds = some ((natVal ds : ℚ)) ∧
    parseNumber ('(' :: ds ++ [')']) = some (-((natVal ds : ℚ))) ∧
    0 ≤ ((natVal ds : ℚ)) ∧
    (((natVal ds : ℚ)) ≠ 0 → -((natVal ds : ℚ)) < 0) := by
  have hclean : ds.filter (fun c => !isCurrencyStrip c) = ds :=
    List.filter_eq_self.mpr (fun c hc => by simp [digit_not_strip (h2 c hc)])
  have hparen : ds.filter (fun c => !(c == '(' || c == ')')) = ds :=
    List.filter_eq_self.mpr (fun c hc => by simp [digit_not_paren (h2 c hc)])
  have hno : ds.contains '(' = false :=
    @not_contains_of_all '(' Char.isDigit (by decide) ds h2
  have hpf := parseFloat_digits ds h1 h2
  refine ⟨?_, ?_, Nat.cast_nonneg _,
    fun hne => neg_lt_zero.mpr (lt_of_le_of_ne (Nat.cast_nonneg _) (Ne.symm hne))⟩
  · simp only [parseNumber]
    rw [if_neg h1, hclean, hparen, hno, Bool.false_and, hpf]
    simp
  · have hcons : ('(' :: ds ++ [')'] : Str) ≠ [] := by simp
    have hc2 : ('(' :: ds ++ [')']).filter (fun c => !isCurrencyStrip c) =
        '(' :: ds ++ [')'] := by
      refine List.filter_eq_self.mpr (fun c hc => ?_)
      rcases List.mem_cons.mp hc with rfl | hc2
      · decide
      · rcases List.mem_append.mp hc2 with hc3 | hc3
        · simp [digit_not_strip (h2 c hc3)]
        · simp only [List.mem_singleton] at hc3
          subst hc3
          decide
    have hp2 : ('(' :: ds ++ [')']).filter (fun c => !(c == '(' || c == ')')) = ds := by
      rw [show ('(' :: ds ++ [')'] : Str) = '(' :: (ds ++ [')']) from rfl,
        List.filter_cons, if_neg (by decide), List.filter_append, hparen,
        show List.filter (fun c => !(c == '(' || c == ')')) [')'] = [] from by decide,
        List.append_nil]
    have hctn1 : ('(' :: ds ++ [')']).contains '(' = true := by simp
    have hctn2 : ('(' :: ds ++ [')']).contains ')' = true := by simp
    have habs : jsAbs ((natVal ds : ℚ)) = (natVal ds : ℚ) := by
      unfold jsAbs
      rw [if_neg (not_lt.mpr (Nat.cast_nonneg _))]
    simp only [parseNumber]
    rw [if_neg hcons, hc2, hp2, hctn1, hctn2, Bool.true_and, hpf]
    simp [habs]

/-- Witness for C8 (amended) at the digit string `"123"`. -/
theorem c8_paren_negation_witness :
    parseNumber "123".data = some ((natVal "123".data : ℚ)) ∧
    parseNumber ('(' :: "123".data ++ [')']) = some (-((natVal "123".data : ℚ))) ∧
    0 ≤ ((natVal "123".data : ℚ)) ∧
    (((natVal "123".data : ℚ)) ≠ 0 → -((natVal "123".data : ℚ)) < 0) :=
  c8_paren_negation "123".data (by decide) (by decide)

theorem daysInMonth_le (y m : Nat) : daysInMonth y m ≤ 31 := by
  unfold daysInMonth
  split
  · split <;> norm_num
  · split <;> norm_num

theorem digitChar_isDigit {n : Nat} (h : n < 10) : (digitChar n).isDigit = true := by
  interval_cases n <;> decide

theorem dv_digitChar {n : Nat} (h : n < 10) : dv (digitChar n) = n := by
  interval_cases n <;> decide

/-- Rendering a bounded date and re-matching the `NNNN-NN-NN` shape recovers
the components. -/
theorem matchShape1_fmtISO (y m d : Nat) (hy : y ≤ 9999) (hm : m ≤ 99) (hd : d ≤ 99) :
    matchShape1 '-' (fmtISO y m d) = some (y, m, d) := by
  have h10 : ∀ n : Nat, n % 10 < 10 := fun n => Nat.mod_lt _ (by norm_num)
  simp only [fmtISO, pad4, pad2, List.cons_append, List.nil_append, matchShape1]
  rw [if_pos (by
    refine ⟨by trivial, by trivial, ?_⟩
    simp only [List.all_cons, List.all_nil, Bool.and_true, Bool.and_eq_true]
    exact ⟨digitChar_isDigit (h10 _), digitChar_isDigit (h10 _), digitChar_isDigit (h10 _),
      digitChar_isDigit (h10 _), digitChar_isDigit (h10 _), digitChar_isDigit (h10 _),
      digitChar_isDigit (h10 _), digitChar_isDigit (h10 _)⟩)]
  simp only [Option.some.injEq, Prod.mk.injEq]
  rw [dv_digitChar (h10 _), dv_digitChar (h10 _), dv_digitChar (h10 _), dv_digitChar (h10 _),
    dv_digitChar (h10 _), dv_digitChar (h10 _), dv_digitChar (h10 _), dv_digitChar (h10 _)]
  refine ⟨?_, ?_, ?_⟩ <;> omega

/-- **C9**: date normalization is idempotent on its own output — for every
string in canonical `YYYY-MM-DD` form denoting a valid calendar date (the
year rendered with four digits), `normalizeDate` returns the identical
string. -/
theorem c9_normalizeDate_idempotent (y m d : Nat) (h : validDate y m d) (hy : y ≤ 9999) :
    normalizeDate (fmtISO y m d) = some (fmtISO y m d) := by
  have hm99 : m ≤ 99 := le_trans h.2.1 (by norm_num)
  have hd99 : d ≤ 99 := le_trans h.2.2.2 (le_trans (daysInMonth_le y m) (by norm_num))
  have hmatch := matchShape1_fmtISO y m d hy hm99 hd99
  simp only [normalizeDate, tryFormat, hmatch, id_eq, if_pos h]
  rfl

/-- Witness for C9 at the leap-day date `2024-02-29`. -/
theorem c9_normalizeDate_idempotent_witness :
    normalizeDate (fmtISO 2024 2 29) = some (fmtISO 2024 2 29) :=
  c9_normalizeDate_idempotent 2024 2 29 (by decide) (by decide)

/-- **C3**: every transaction produced by any of the three extraction paths
(CSV/spreadsheet via `parseCSVRow`, PDF via `parsePDFLine`, canonicalizing
CSV via `parseTransactionRow`) stores the absolute magnitude of the parsed
value as its non-negative amount; on the sign-default paths the sign is
carried by the `type` field. -/
theorem c3_amount_abs :
    (∀ (row : RawRow) (t : RawTransaction), parseCSVRow row = Except.ok (some t) →
      t.amount = |(findAmount row).getD 0| ∧ 0 ≤ t.amount ∧
      t.type = (if 0 < (findAmount row).getD 0 then TxType.income else TxType.expense)) ∧
    (∀ (l : Str) (t : RawTransaction), parsePDFLine l = Except.ok (some t) →
      ∃ m a, findFirstAmount (trim l) = some m ∧
        parseFloat (stripCommaDollar m) = some a ∧
        t.amount = |a| ∧ 0 ≤ t.amount ∧
        t.type = (if 0 < a then TxType.income else TxType.expense)) ∧
    (∀ (row : RawRow) (t : ParsedTransaction), parseTransactionRow row = Except.ok t →
      ∃ a, extractAmount (normalizeRow row) = some a ∧ t.amount = |a| ∧ 0 ≤ t.amount) := by
  refine ⟨fun row t h => ?_, fun l t h => ?_, fun row t h => ?_⟩
  · simp only [parseCSVRow] at h
    split at h
    · simp at h
    · split at h
      · simp at h
      · simp only [Except.ok.injEq, Option.some.injEq] at h
        subst h
        exact ⟨by simp [jsAbs_eq_abs], by simp [jsAbs_eq_abs, abs_nonneg], by simp⟩
  · simp only [parsePDFLine] at h
    split at h
    · simp at h
    · split at h
      · rename_i dm am hdm ham
        split at h
        · simp at h
        · rename_i nd hnd
          split at h
          · simp at h
          · rename_i a ha
            simp only [Except.ok.injEq, Option.some.injEq] at h
            subst h
            exact ⟨am, a, ham, ha, by simp [jsAbs_eq_abs],
              by simp [jsAbs_eq_abs, abs_nonneg], by simp⟩
      · simp at h
  · simp only [parseTransactionRow] at h
    split at h
    · simp at h
    · rename_i a ha
      split at h
      · simp at h
      · split at h
        · simp at h
        · split at h
          · simp at h
          · split at h
            · simp at h
            · simp only [Except.ok.injEq] at h
              subst h
              exact ⟨a, ha, by simp [jsAbs_eq_abs], by simp [jsAbs_eq_abs, abs_nonneg]⟩

/-- Witness for C3: a parenthesized (negative) amount is stored as its
absolute value. -/
theorem c3_amount_abs_witness :
    ∃ a, extractAmount (normalizeRow [("Amount".data, "(45.00)".data),
        ("Description".data, "Fee".data), ("Date".data, "2024-01-05".data)]) = some a ∧
      (⟨45, "Fee".data, TxType.expense, "2024-01-05".data⟩ : ParsedTransaction).amount = |a| ∧
      0 ≤ (⟨45, "Fee".data, TxType.expense, "2024-01-05".data⟩ : ParsedTransaction).amount :=
  c3_amount_abs.2.2 _ _ (by decide)

/-- Accumulator lemma for the `parseCSVFile` row loop. -/
theorem foldl_rowStep_append (rows : List RawRow) (acc : List ParsedTransaction × List String) :
    rows.foldl rowStep acc =
      (acc.1 ++ (processCSVRows rows).1, acc.2 ++ (processCSVRows rows).2) := by
  induction rows generalizing acc with
  | nil => simp [processCSVRows]
  | cons r rs ih =>
    have hps : processCSVRows (r :: rs) =
        ((rowStep ([], []) r).1 ++ (processCSVRows rs).1,
         (rowStep ([], []) r).2 ++ (processCSVRows rs).2) := by
      rw [processCSVRows, List.foldl_cons, ih]
    rw [List.foldl_cons, ih (rowStep acc r), hps]
    cases h : parseTransactionRow r <;> simp [rowStep, h]

/-- **C1**: row normalization is total and exclusive — over any row list the
transaction count plus the error count equals the row count; a row whose
amount, description and date extractions all succeed yields a transaction
(and hence no error), a row missing any of the three yields an error (and no
transaction), and no row yields both. -/
theorem c1_row_exactly_one :
    (∀ rows : List RawRow,
      (processCSVRows rows).1.length + (processCSVRows rows).2.length = rows.length) ∧
    (∀ row : RawRow, rowRecognizable row → ∃ t, parseTransactionRow row = Except.ok t) ∧
    (∀ row : RawRow, ¬rowRecognizable row → ∃ e, parseTransactionRow row = Except.error e) ∧
    (∀ (row : RawRow) (t : ParsedTransaction) (e : String),
      ¬(parseTransactionRow row = Except.ok t ∧ parseTransactionRow row = Except.error e)) := by
  refine ⟨?_, fun row h => ?_, fun row h => ?_, fun row t e ⟨h1, h2⟩ => by
    rw [h1] at h2; cases h2⟩
  · intro rows
    induction rows with
    | nil => rfl
    | cons r rs ih =>
      rw [processCSVRows, List.foldl_cons, foldl_rowStep_append]
      cases h : parseTransactionRow r <;>
        simp [rowStep, h, processCSVRows] at ih ⊢ <;> omega
  · obtain ⟨ha, hd, hdt⟩ := h
    simp only [parseTransactionRow]
    split
    · rename_i hn; rw [hn] at ha; cases ha
    · split
      · rename_i hn; rw [hn] at hd; simp at hd
      · rename_i d hdesc
        rw [hdesc] at hd
        simp only [Option.getD_some] at hd
        rw [if_neg hd]
        split
        · rename_i hn; rw [hn] at hdt; simp at hdt
        · rename_i s hs
          rw [hs] at hdt
          simp only [Option.getD_some] at hdt
          rw [if_neg hdt]
          exact ⟨_, rfl⟩
  · simp only [rowRecognizable, not_and_or] at h
    simp only [parseTransactionRow]
    split
    · exact ⟨_, rfl⟩
    · rename_i a ha
      split
      · exact ⟨_, rfl⟩
      · rename_i d hd
        by_cases hde : d = []
        · rw [if_pos hde]
          exact ⟨_, rfl⟩
        · rw [if_neg hde]
          split
          · exact ⟨_, rfl⟩
          · rename_i s hs
            by_cases hse : s = []
            · rw [if_pos hse]
              exact ⟨_, rfl⟩
            · exfalso
              rcases h with h | h | h
              · rw [ha] at h; simp at h
              · rw [hd] at h; simp at h; exact hde h
              · rw [hs] at h; simp at h; exact hse h

/-- Witness for C1: a well-formed row yields a transaction. -/
theorem c1_row_exactly_one_witness :
    ∃ t, parseTransactionRow [("Date".data, "2024-01-05".data),
      ("Description".data, "Coffee Shop".data), ("Amount".data, "-4.50".data)] =
      Except.ok t :=
  c1_row_exactly_one.2.1 _ (by decide)

/-- **C2** (counterexample): a file whose single row fails to parse is NOT
returned as a valid-but-empty `(transactions, errors)` pair — `parseCSVFile`
rejects (throws) at end of stream when there are zero transactions and at
least one row error. -/
theorem c2_counterexample :
    parseCSVFile [[("foo".data, "bar".data)]] =
      Except.error
        "No valid transactions found. Errors: Row parsing error: Could not parse amount from row" := by
  rfl

/-- **C2** (amended): a per-row parse failure never aborts row processing —
the error is recorded once and every other row is processed exactly as it
would be without the failing row; however, a file yielding zero transactions
and at least one row error is rejected with a `No valid transactions found`
error at end of stream instead of being returned as an empty pair (a file
with no rows and no errors does resolve with the empty list). -/
theorem c2_per_row_failure (pre post : List RawRow) (row : RawRow) (e : String)
    (h : parseTransactionRow row = Except.error e) :
    (processCSVRows (pre ++ row :: post)).1 =
      (processCSVRows pre).1 ++ (processCSVRows post).1 ∧
    (processCSVRows (pre ++ row :: post)).2 =
      (processCSVRows pre).2 ++ ("Row parsing error: " ++ e) :: (processCSVRows post).2 ∧
    (∀ rows : List RawRow,
      parseCSVFile rows =
        if (processCSVRows rows).1 = [] ∧ (processCSVRows rows).2 ≠ [] then
          Except.error ("No valid transactions found. Errors: " ++
            String.intercalate "; " (processCSVRows rows).2)
        else Except.ok (processCSVRows rows).1) ∧
    parseCSVFile [] = Except.ok [] := by
  have key : processCSVRows (pre ++ row :: post) =
      ((processCSVRows pre).1 ++ (processCSVRows post).1,
       (processCSVRows pre).2 ++ ("Row parsing error: " ++ e) :: (processCSVRows post).2) := by
    rw [processCSVRows, List.foldl_append, List.foldl_cons]
    rw [show List.foldl rowStep ([], []) pre = processCSVRows pre from rfl]
    rw [foldl_rowStep_append post (rowStep (processCSVRows pre) row)]
    simp [rowStep, h]
  exact ⟨by rw [key], by rw [key], fun rows => rfl, rfl⟩

/-- Witness for C2 (amended) on a one-bad-row file. -/
theorem c2_per_row_failure_witness :
    (processCSVRows ([] ++ [("foo".data, "bar".data)] :: [])).1 =
      (processCSVRows []).1 ++ (processCSVRows []).1 ∧
    (processCSVRows ([] ++ [("foo".data, "bar".data)] :: [])).2 =
      (processCSVRows []).2 ++
        ("Row parsing error: " ++ "Could not parse amount from row") :: (processCSVRows []).2 :=
  ⟨(c2_per_row_failure [] [] [("foo".data, "bar".data)]
      "Could not parse amount from row" rfl).1,
   (c2_per_row_failure [] [] [("foo".data, "bar".data)]
      "Could not parse amount from row" rfl).2.1⟩

/-- **C5** (counterexample): for a description consisting of exactly one
keyword (bounded by string edges on both sides), the code scores it +5 (plus
the small-amount bonus: 7 total), not the +10 whole-word score the claim's
"bounded by whitespace or string edges" wording demands (12 total). -/
theorem c5_counterexample :
    calculateMatchScore "coffee".data ["coffee".data] 4 TxType.expense = 7 ∧
    claimMatchScore "coffee".data ["coffee".data] 4 TxType.expense = 12 ∧
    (7 : Nat) ≠ 12 := by
  refine ⟨by decide, by decide, by decide⟩

/-- **C5** (amended): the match score is the sum over keywords of a
per-keyword score — +10 when the lower-cased keyword occurs space-delimited
(interior ` kw `, leading `kw `, or trailing ` kw`; a description equal to
the keyword alone only scores +5), +5 when it occurs merely as a substring,
0 otherwise — plus the +2 amount-band bonus for expense rules whose keyword
set contains rent/mortgage/car with amount above 1000, or coffee/food/snack
with amount below 50. -/
theorem c5_match_score (description : Str) (keywords : List Str) (amount : ℚ)
    (ty : TxType) :
    calculateMatchScore description keywords amount ty =
      (keywords.map (keywordScore description)).sum + amountBonus keywords amount ty := by
  have hfold : ∀ (l : List Str) (n : Nat),
      l.foldl (fun score keyword =>
        let k := lowerStr keyword
        if jsIncludes description k then
          if jsIncludes description (' ' :: (k ++ [' '])) ||
             jsStartsWith description (k ++ [' ']) ||
             jsEndsWith description (' ' :: k)
          then score + 10
          else score + 5
        else score) n = n + (l.map (keywordScore description)).sum := by
    intro l
    induction l with
    | nil => intro n; simp
    | cons kw ks ih =>
      intro n
      rw [List.foldl_cons, ih]
      simp only [List.map_cons, List.sum_cons, keywordScore]
      split_ifs <;> omega
  simp only [calculateMatchScore, amountBonus]
  rw [hfold]
  split_ifs <;> omega

theorem firstMax_pos : ∀ {l : List (Category × Nat)} {q : Category × Nat},
    firstMax l = some q → 0 < q.2 := by
  intro l
  induction l with
  | nil => intro q h; cases h
  | cons p t ih =>
    intro q h
    simp only [firstMax] at h
    split at h
    · split at h
      · rename_i hc
        cases h
        exact hc
      · cases h
    · rename_i m hm
      split at h
      · rename_i hc
        cases h
        exact hc.1
      · cases h
        exact ih hm

theorem firstMax_eq_none : ∀ {l : List (Category × Nat)},
    firstMax l = none ↔ ∀ p ∈ l, p.2 = 0 := by
  intro l
  induction l with
  | nil => simp [firstMax]
  | cons p t ih =>
    simp only [firstMax]
    constructor
    · intro h
      split at h
      · rename_i hm
        split at h
        · cases h
        · rename_i hp
          intro r hr
          rcases List.mem_cons.mp hr with rfl | hr
          · omega
          · exact ih.mp hm r hr
      · split at h <;> simp at h
    · intro h
      have hm : firstMax t = none := ih.mpr (fun r hr => h r (List.mem_cons_of_mem _ hr))
      rw [hm]
      have hp : p.2 = 0 := h p (List.mem_cons_self _ _)
      simp [hp]

theorem firstMax_isMax : ∀ {l : List (Category × Nat)} {q : Category × Nat},
    firstMax l = some q → ∀ p ∈ l, p.2 ≤ q.2 := by
  intro l
  induction l with
  | nil => intro q h; cases h
  | cons r t ih =>
    intro q h p hp
    simp only [firstMax] at h
    rcases List.mem_cons.mp hp with rfl | hp2
    · split at h
      · split at h
        · cases h; omega
        · cases h
      · rename_i m hm
        have hM := firstMax_pos hm
        split at h
        · cases h; omega
        · rename_i hc
          cases h
          omega
    · split at h
      · rename_i hm
        have : p.2 = 0 := firstMax_eq_none.mp hm p hp2
        split at h
        · cases h; omega
        · cases h
      · rename_i m hm
        have hle := ih hm p hp2
        split at h
        · rename_i hc
          cases h
          omega
        · cases h
          exact hle

theorem bestStep_pos {b : Option (Category × Nat)} {p : Category × Nat}
    (hb : ∀ q, b = some q → 0 < q.2) : ∀ q, bestStep b p = some q → 0 < q.2 := by
  intro q hq
  unfold bestStep at hq
  split at hq
  · rename_i hc
    cases hq
    exact hc.1
  · exact hb q hq

/-- One cons step of the best-match fold, expressed through `mergeBest`. -/
theorem mergeBest_step (b : Option (Category × Nat)) (p : Category × Nat)
    (t : List (Category × Nat)) (hb : ∀ q, b = some q → 0 < q.2) :
    mergeBest (bestStep b p) (firstMax t) = mergeBest b (firstMax (p :: t)) := by
  rcases b with _ | ⟨q0⟩
  · rcases hfm : firstMax t with _ | ⟨m⟩
    · by_cases h1 : 0 < p.2 <;> simp [firstMax, hfm, bestStep, mergeBest, h1]
    · by_cases h1 : 0 < p.2
      · by_cases h2 : p.2 < m.2
        · simp [firstMax, hfm, bestStep, mergeBest, h1, h2,
            show ¬(m.2 ≤ p.2) from by omega]
        · simp [firstMax, hfm, bestStep, mergeBest, h1, h2,
            show m.2 ≤ p.2 from by omega]
      · simp [firstMax, hfm, bestStep, mergeBest, h1]
  · have hQ : 0 < q0.2 := hb q0 rfl
    rcases hfm : firstMax t with _ | ⟨m⟩
    · by_cases h2 : q0.2 < p.2
      · have h1 : 0 < p.2 := by omega
        simp [firstMax, hfm, bestStep, mergeBest, h1, h2]
      · by_cases h1 : 0 < p.2 <;> simp [firstMax, hfm, bestStep, mergeBest, h1, h2]
    · have hM : 0 < m.2 := firstMax_pos hfm
      by_cases h1 : 0 < p.2
      · by_cases h2 : q0.2 < p.2
        · by_cases h3 : m.2 ≤ p.2
          · simp [firstMax, hfm, bestStep, mergeBest, h1, h2, h3,
              show ¬(p.2 < m.2) from by omega]
          · simp [firstMax, hfm, bestStep, mergeBest, h1, h2, h3,
              show p.2 < m.2 from by omega, show q0.2 < m.2 from by omega]
        · by_cases h4 : m.2 ≤ p.2
          · simp [firstMax, hfm, bestStep, mergeBest, h1, h2, h4,
              show ¬(q0.2 < m.2) from by omega]
          · by_cases h5 : q0.2 < m.2 <;>
              simp [firstMax, hfm, bestStep, mergeBest, h1, h2, h4, h5]
      · simp [firstMax, hfm, bestStep, mergeBest, h1]

/-- The best-match fold of the source equals `firstMax` merged with the
incoming accumulator. -/
theorem foldl_bestStep_eq (l : List (Category × Nat)) :
    ∀ b : Option (Category × Nat), (∀ q, b = some q → 0 < q.2) →
      l.foldl bestStep b = mergeBest b (firstMax l) := by
  induction l with
  | nil =>
    intro b hb
    cases b <;> rfl
  | cons p t ih =>
    intro b hb
    rw [List.foldl_cons, ih (bestStep b p) (bestStep_pos hb)]
    exact mergeBest_step b p t hb

/-- The category loop of the source is the best-match fold over the scored
candidates. -/
theorem catStep_foldl (cats : List Category) (desc : Str) (amount : ℚ) (ty : TxType) :
    ∀ b, cats.foldl (catStep (getCategoryRules ty) (trim (lowerStr desc)) amount ty) b =
      (scoredCandidates cats desc amount ty).foldl bestStep b := by
  induction cats with
  | nil => intro b; rfl
  | cons c cs ih =>
    intro b
    rw [List.foldl_cons]
    simp only [scoredCandidates, List.filterMap_cons]
    cases hr : findRule (getCategoryRules ty) c with
    | none =>
      simp only [catStep, hr, Option.map_none]
      rw [ih b]
      rfl
    | some r =>
      simp only [catStep, hr, Option.map_some, List.foldl_cons]
      rw [ih (bestStep b (c, calculateMatchScore (trim (lowerStr desc)) r.keywords amount ty))]
      rfl

/-- **C6** (counterexample): with the description `Food Gas` both the
`Food & Dining` rule (table position 1) and the `Transportation` rule (table
position 2) score 10, but with the DB categories listed as
`[Transportation, Food & Dining]` the code returns Transportation (id 2) —
the tie resolves to the first category in the caller-supplied order, while
the claim's fixed rule-table order would pick `Food & Dining` (id 1). -/
theorem c6_counterexample :
    categorizeTransaction [⟨2, "Transportation".data⟩, ⟨1, "Food & Dining".data⟩]
      "Food Gas".data 100 TxType.expense = some 2 ∧
    claimCategorize [⟨2, "Transportation".data⟩, ⟨1, "Food & Dining".data⟩]
      "Food Gas".data 100 TxType.expense = some 1 ∧
    (some (2 : Int) : Option Int) ≠ some 1 := by
  refine ⟨by decide, by decide, by decide⟩

/-- **C6** (amended): `categorizeTransaction` returns the category of the
earliest candidate — in the iteration order of the caller-supplied category
list, not the fixed rule-table order — attaining the maximal positive score
(ties resolve to the earlier category, since the best match is replaced only
on strict improvement); when every candidate scores 0 it falls back to the
default category (`income` then `other` for income, `other` for expense) or
`none`, and no failure is ever raised. -/
theorem c6_categorize (cats : List Category) (description : Str) (amount : ℚ)
    (ty : TxType) :
    (categorizeTransaction cats description amount ty =
      match firstMax (scoredCandidates cats description amount ty) with
      | some p => some p.1.id
      | none => getDefaultCategoryId ty cats) ∧
    (∀ q, firstMax (scoredCandidates cats description amount ty) = some q →
      0 < q.2 ∧ ∀ p ∈ scoredCandidates cats description amount ty, p.2 ≤ q.2) ∧
    (firstMax (scoredCandidates cats description amount ty) = none ↔
      ∀ p ∈ scoredCandidates cats description amount ty, p.2 = 0) := by
  refine ⟨?_, fun q hq => ⟨firstMax_pos hq, firstMax_isMax hq⟩, firstMax_eq_none⟩
  by_cases hc : cats = []
  · subst hc
    simp only [categorizeTransaction, if_pos rfl, scoredCandidates, List.filterMap_nil,
      firstMax]
    cases ty <;> simp [getDefaultCategoryId]
  · simp only [categorizeTransaction, if_neg hc]
    rw [catStep_foldl, foldl_bestStep_eq _ none (fun q h => by cases h)]
    cases firstMax (scoredCandidates cats description amount ty) <;> rfl

/-- Witness for C6 (amended): on the counterexample input the maximal
candidate is Transportation with score 10, dominating all candidates. -/
theorem c6_categorize_witness :
    0 < ((⟨2, "Transportation".data⟩, 10) : Category × Nat).2 ∧
    ∀ p ∈ scoredCandidates [⟨2, "Transportation".data⟩, ⟨1, "Food & Dining".data⟩]
        "Food Gas".data 100 TxType.expense,
      p.2 ≤ ((⟨2, "Transportation".data⟩, 10) : Category × Nat).2 :=
  (c6_categorize [⟨2, "Transportation".data⟩, ⟨1, "Food & Dining".data⟩]
    "Food Gas".data 100 TxType.expense).2.1 _ (by decide)

end Tracker

